import Mathlib

/-!
Verification development for the USDC stablecoin weekly-report pipeline
(`stablecoin_weekly.py`).

Modeling conventions:
* Python floats are modeled as exact rationals (`ℚ`); the numeric claims under
  scrutiny concern exact small values where binary floating point is faithful.
* Python/JSON values (the payloads flowing through the pipeline) are modeled by
  the inductive `PyVal`; a Python `dict` is an insertion-ordered association
  list with unique keys, `None` is `PyVal.none`, and `dict.get` of an absent
  key is collapsed with a present-but-`None` value exactly where the source
  only ever tests `is None` on the result.
* `WeeklyReportError` (the single fatal error kind) is modeled by
  `Except String`; raising is returning `.error msg`.
* String helpers (`.strip()`, `.lower()`, `.upper()`) are modeled by
  executable functions over the character list of a `String`.
-/

attribute [local semireducible] Rat.add Rat.mul Rat.sub Rat.inv Rat.ofScientific

/-- Model of a Python/JSON value as it flows through the pipeline. -/
inductive PyVal : Type where
  | none : PyVal
  | bool (b : Bool) : PyVal
  | num (q : ℚ) : PyVal
  | str (s : String) : PyVal
  | list (items : List PyVal) : PyVal
  | dict (fields : List (String × PyVal)) : PyVal

/-- Python `d.get(k)` on a dict modeled as an association list (keys unique,
first match wins, as in a Python dict). -/
def dictGet {α : Type} : List (String × α) → String → Option α
  | [], _ => Option.none
  | p :: rest, k => if p.1 = k then some p.2 else dictGet rest k

/-- Python `d[k] = v`: overwrite in place if the key exists, else append. -/
def dictSet {α : Type} : List (String × α) → String → α → List (String × α)
  | [], k, v => [(k, v)]
  | p :: rest, k, v => if p.1 = k then (k, v) :: rest else p :: dictSet rest k v

/-- Python `s.lower()` (per-character lowercasing). -/
def lowerStr (s : String) : String := String.mk (s.data.map Char.toLower)

/-- Python `s.upper()` (per-character uppercasing). -/
def upperStr (s : String) : String := String.mk (s.data.map Char.toUpper)

/-- Python `s.strip()`: drop leading and trailing whitespace. -/
def trimStr (s : String) : String :=
  String.mk (((s.data.dropWhile Char.isWhitespace).reverse.dropWhile Char.isWhitespace).reverse)

/-- Value of a digit string (digits already validated by the caller). -/
def digitsToNat (l : List Char) : Nat := l.foldl (fun n c => 10 * n + (c.toNat - 48)) 0

/-- Model of Python `float(s)` on a string: an optionally signed decimal
literal, surrounded by optional whitespace. Exotic forms accepted by CPython
(`inf`, `nan`, exponents, underscores) are treated as unparseable; no claim
depends on them. -/
def parseDecimal? (s : String) : Option ℚ :=
  let t := (trimStr s).data
  let sb : ℚ × List Char :=
    match t with
    | '-' :: rest => (-1, rest)
    | '+' :: rest => (1, rest)
    | l => (1, l)
  let body := sb.2
  if body.count '.' = 0 then
    if body ≠ [] ∧ body.all Char.isDigit then some (sb.1 * (digitsToNat body : ℚ))
    else Option.none
  else if body.count '.' = 1 then
    let ip := body.takeWhile (fun ch => ch != '.')
    let fp := (body.dropWhile (fun ch => ch != '.')).tail
    if (ip ≠ [] ∨ fp ≠ []) ∧ ip.all Char.isDigit ∧ fp.all Char.isDigit then
      some (sb.1 * ((digitsToNat ip : ℚ) + (digitsToNat fp : ℚ) / (10 : ℚ) ^ fp.length))
    else Option.none
  else Option.none

/-- Model of Python `int(s)` on a string: optionally signed digits. -/
def parseIntStr? (s : String) : Option ℤ :=
  let t := (trimStr s).data
  let sb : ℤ × List Char :=
    match t with
    | '-' :: rest => (-1, rest)
    | '+' :: rest => (1, rest)
    | l => (1, l)
  if sb.2 ≠ [] ∧ sb.2.all Char.isDigit then some (sb.1 * (digitsToNat sb.2 : ℤ))
  else Option.none

/-- Python truthiness of a value. -/
def pyTruthy : PyVal → Bool
  | PyVal.none => false
  | PyVal.bool b => b
  | PyVal.num q => decide (q ≠ 0)
  | PyVal.str s => decide (s ≠ "")
  | PyVal.list items => !items.isEmpty
  | PyVal.dict fields => !fields.isEmpty

/-- Model of Python `float(v)`: `Option.none` means `float` raises
(`TypeError`/`ValueError`). -/
def pyFloat : PyVal → Option ℚ
  | PyVal.bool b => some (if b then 1 else 0)
  | PyVal.num q => some q
  | PyVal.str s => parseDecimal? s
  | _ => Option.none

/-- Model of Python `int(v)` (truncation toward zero on numbers);
`Option.none` means `int` raises. -/
def pyInt : PyVal → Option ℤ
  | PyVal.bool b => some (if b then 1 else 0)
  | PyVal.num q => some (if 0 ≤ q then Int.floor q else -Int.floor (-q))
  | PyVal.str s => parseIntStr? s
  | _ => Option.none

/-- Model of Python `str(v)`. The renderings of numbers and containers are
abbreviated stand-ins for CPython's (no claim depends on them); strings are
the identity, which is all the pipeline relies on. -/
def pyStr : PyVal → String
  | PyVal.none => "None"
  | PyVal.bool b => if b then "True" else "False"
  | PyVal.num q => if q.den = 1 then toString q.num else toString q
  | PyVal.str s => s
  | PyVal.list _ => "[...]"
  | PyVal.dict _ => "\x7b...\x7d"

/-! ### Supply side (DefiLlama): `get_pegged_usd_circulating` and
`build_top20_symbols_and_usdc_supply` -/

/-- One record of the `peggedAssets` list. `pegType` and `symbol` model
`asset.get("pegType")` / `asset.get("symbol")` (absent key = `Option.none`;
non-string symbols are outside the model). `circulating` is the raw
`asset.get("circulating")` value (absent key = `PyVal.none`). -/
structure Asset : Type where
  pegType : Option String
  symbol : Option String
  circulating : PyVal

/-- `str(asset.get("symbol") or "").strip()`. -/
def symbolString (a : Asset) : String := trimStr (a.symbol.getD "")

/-- The `value` picked by `get_pegged_usd_circulating`: the nested
`peggedUSD` entry when `circulating` is a dict, else `circulating` itself. -/
def circValue : PyVal → PyVal
  | PyVal.dict d => (dictGet d "peggedUSD").getD PyVal.none
  | v => v

/-- `get_pegged_usd_circulating`: `float(value or 0)` with
`TypeError`/`ValueError` caught and mapped to `0.0`. Total by construction. -/
def get_pegged_usd_circulating (circulating : PyVal) : ℚ :=
  let value := circValue circulating
  if pyTruthy value then (pyFloat value).getD 0 else 0

/-- The `(symbol, circulating)` pair the loop appends to `usd_assets` for one
asset (`Option.none` when the asset is filtered out). -/
def usdAssetEntry (a : Asset) : Option (String × ℚ) :=
  if a.pegType = some "peggedUSD" then
    let symbol := symbolString a
    if symbol = "" then Option.none
    else some (symbol, get_pegged_usd_circulating a.circulating)
  else Option.none

/-- The value the loop appends to `usdc_candidates` for one asset
(`symbol.upper() == "USDC"` after the same filtering). -/
def usdcCandidateEntry (a : Asset) : Option ℚ :=
  if a.pegType = some "peggedUSD" then
    let symbol := symbolString a
    if symbol = "" then Option.none
    else if upperStr symbol = "USDC" then some (get_pegged_usd_circulating a.circulating)
    else Option.none
  else Option.none

/-- The `usd_assets` list collected by the loop. -/
def usdAssets (assets : List Asset) : List (String × ℚ) :=
  assets.filterMap usdAssetEntry

/-- The `usdc_candidates` list collected by the loop. -/
def usdcCandidates (assets : List Asset) : List ℚ :=
  assets.filterMap usdcCandidateEntry

/-- Python `max` over a non-empty list (the `[]` case is never reached by the
source, which raises before calling `max` on an empty list). -/
def listMax : List ℚ → ℚ
  | [] => 0
  | x :: xs => xs.foldl max x

/-- The ordering used by `sorted(usd_assets, key=..., reverse=True)`:
`p` may stay before `q` iff `p`'s circulating value is ≥ `q`'s. -/
def descBySnd (p q : String × ℚ) : Prop := q.2 ≤ p.2

instance : DecidableRel descBySnd := fun p q => inferInstanceAs (Decidable (q.2 ≤ p.2))

instance : IsTotal (String × ℚ) descBySnd := ⟨fun a b => le_total b.2 a.2⟩

instance : IsTrans (String × ℚ) descBySnd := ⟨fun _ _ _ h1 h2 => le_trans h2 h1⟩

/-- Python's `sorted(..., key=lambda item: item[1], reverse=True)` is a stable
sort placing larger values first; a stable insertion sort with `descBySnd`
computes exactly that list. -/
def sortDescBySnd (l : List (String × ℚ)) : List (String × ℚ) :=
  List.insertionSort descBySnd l

/-- The dedup-and-truncate loop over `sorted_assets`: normalize to lowercase,
skip seen symbols, stop as soon as 20 symbols are collected. `acc` is
`top_symbols` (the source's `seen_symbols` set always holds exactly the
elements of `top_symbols`, so membership is tested on `acc`). -/
def pickTopSymbols : List (String × ℚ) → List String → List String
  | [], acc => acc
  | p :: rest, acc =>
    let n := lowerStr p.1
    if n ∈ acc then pickTopSymbols rest acc
    else
      let acc' := acc ++ [n]
      if acc'.length = 20 then acc' else pickTopSymbols rest acc'

/-- `build_top20_symbols_and_usdc_supply`. -/
def build_top20_symbols_and_usdc_supply (pegged_assets : List Asset) :
    Except String (List String × ℚ) :=
  let usd_assets := usdAssets pegged_assets
  let usdc_candidates := usdcCandidates pegged_assets
  if usd_assets.isEmpty then Except.error "No peggedUSD assets found in DefiLlama response"
  else if usdc_candidates.isEmpty then
    Except.error "USDC supply not found in DefiLlama stablecoins list"
  else Except.ok (pickTopSymbols (sortDescBySnd usd_assets) [], listMax usdc_candidates)

/-! Spec-side pipeline for the top-20 selection, following the spec's words:
"filter assets whose peg type is USD-pegged; normalize symbol to lowercase
with surrounding whitespace trimmed; drop empty symbols; sort by circulating
amount descending; deduplicate by normalized symbol keeping the first
(highest-circulating) occurrence; take the first 20". -/

/-- Lowercase the symbol of a pair. -/
def lowerFst (p : String × ℚ) : String × ℚ := (lowerStr p.1, p.2)

/-- Modelled from the spec: the filtered list with symbols normalized
(lowercased and trimmed) and empties dropped, each paired with its
circulating amount. -/
def specNormalizedAssets (assets : List Asset) : List (String × ℚ) :=
  assets.filterMap fun a =>
    if a.pegType = some "peggedUSD" then
      let n := lowerStr (symbolString a)
      if n = "" then Option.none
      else some (n, get_pegged_usd_circulating a.circulating)
    else Option.none

/-- Deduplicate by key, keeping the first occurrence, skipping keys in
`seen`. -/
def dedupByKey : List (String × ℚ) → List String → List (String × ℚ)
  | [], _ => []
  | p :: rest, seen =>
    if p.1 ∈ seen then dedupByKey rest seen
    else p :: dedupByKey rest (p.1 :: seen)

/-- Modelled from the spec: sort descending, dedup keeping first, take 20 —
with each selected symbol still paired with the circulating value that
determined its position. -/
def specTop20Pairs (assets : List Asset) : List (String × ℚ) :=
  (dedupByKey (sortDescBySnd (specNormalizedAssets assets)) []).take 20

/-- Modelled from the spec: the top-20 symbol sequence of the spec's
pipeline. -/
def specTop20 (assets : List Asset) : List String :=
  (specTop20Pairs assets).map Prod.fst

/-! ### Supply side: `get_total_supply_usd` -/

/-- One point of the DefiLlama chart; `totalCirculating` models
`point.get("totalCirculating")` (absent key = `PyVal.none`). -/
structure ChartPoint : Type where
  totalCirculating : PyVal

/-- `get_total_supply_usd`. The empty-list case models the `IndexError` of
`chart_points[-1]` and the non-parse case models the uncaught exception of
`float(value)`; both propagate into the run's broad failure handler just as
`WeeklyReportError` does. -/
def get_total_supply_usd (chart_points : List ChartPoint) : Except String ℚ :=
  match chart_points.getLast? with
  | Option.none => Except.error "IndexError: list index out of range"
  | some latest_point =>
    match latest_point.totalCirculating with
    | PyVal.dict total_circulating =>
      match (dictGet total_circulating "peggedUSD").getD PyVal.none with
      | PyVal.none => Except.error "DefiLlama chart is missing peggedUSD total supply"
      | v =>
        match pyFloat v with
        | Option.none => Except.error "TypeError: float() argument is not a number"
        | some total_supply_usd =>
          if total_supply_usd ≤ 0 then Except.error "DefiLlama total supply is not positive"
          else Except.ok total_supply_usd
    | _ => Except.error "DefiLlama chart is missing totalCirculating data"

/-! ### Volume side (Dune): row extraction, totals, share, pagination -/

/-- `SYMBOL_COLUMN_CANDIDATES`. -/
def SYMBOL_COLUMN_CANDIDATES : List String :=
  ["symbol", "token_symbol", "asset", "stablecoin", "project"]

/-- `VOLUME_COLUMN_CANDIDATES`. -/
def VOLUME_COLUMN_CANDIDATES : List String :=
  ["volume_7d_usd", "volume_usd_7d", "transfer_volume_usd", "volume_usd", "amount_usd", "volume"]

/-- A result row: a Python dict (JSON object), insertion-ordered. -/
def DuneRow : Type := List (String × PyVal)

/-- Lookup in `lowered_row = {str(key).lower(): value for key, value in row.items()}`:
when several keys collapse to the same lowercased key the comprehension keeps
the last assignment. -/
def loweredRowGet (row : DuneRow) (key : String) : Option PyVal :=
  ((row.filter fun p => lowerStr p.1 = key).getLast?).map Prod.snd

/-- `get_row_value`: the value of the first candidate column present in the
lowered row. Returns `PyVal.none` both when no candidate is present and when
the present value is JSON `null` — the callers only test `is None`, for which
the two coincide. -/
def get_row_value (row : DuneRow) : List String → PyVal
  | [] => PyVal.none
  | c :: cs =>
    match loweredRowGet row c with
    | some v => v
    | Option.none => get_row_value row cs

/-- The `(symbol, volume)` contribution of a single row in the
`extract_dune_symbol_totals` loop (`Option.none` when the row is skipped). -/
def rowContribution (row : DuneRow) : Option (String × ℚ) :=
  match get_row_value row SYMBOL_COLUMN_CANDIDATES with
  | PyVal.none => Option.none
  | raw_symbol =>
    let symbol := lowerStr (trimStr (pyStr raw_symbol))
    if symbol = "" then Option.none
    else
      match get_row_value row VOLUME_COLUMN_CANDIDATES with
      | PyVal.none => Option.none
      | raw_volume =>
        match pyFloat raw_volume with
        | Option.none => Option.none
        | some volume => some (symbol, volume)

/-- The accumulation step `totals[symbol] = totals.get(symbol, 0.0) + volume`
for a single row (rows that are skipped leave `totals` unchanged). -/
def addRowContribution (totals : List (String × ℚ)) (row : DuneRow) : List (String × ℚ) :=
  match rowContribution row with
  | Option.none => totals
  | some sv => dictSet totals sv.1 ((dictGet totals sv.1).getD 0 + sv.2)

/-- The accumulation loop of `extract_dune_symbol_totals` over all rows. -/
def extract_totals_loop (rows : List DuneRow) : List (String × ℚ) :=
  rows.foldl addRowContribution []

/-- `extract_dune_symbol_totals`. -/
def extract_dune_symbol_totals (rows : List DuneRow) : Except String (List (String × ℚ)) :=
  let totals := extract_totals_loop rows
  if totals.isEmpty then
    Except.error
      "Dune query rows did not contain usable symbol and volume columns. Expected columns like symbol + volume_7d_usd."
  else Except.ok totals

/-- The `for symbol in symbols` loop of `compute_dune_share`, building
`missing_symbols` and `denominator_totals` in order. -/
def partitionSymbols (dune_symbol_totals : List (String × ℚ)) :
    List String → List (String × ℚ) → List String → List String × List (String × ℚ)
  | ms, dt, [] => (ms, dt)
  | ms, dt, symbol :: rest =>
    match dictGet dune_symbol_totals symbol with
    | Option.none => partitionSymbols dune_symbol_totals (ms ++ [symbol]) dt rest
    | some v => partitionSymbols dune_symbol_totals ms (dictSet dt symbol v) rest

/-- `compute_dune_share`. -/
def compute_dune_share (dune_symbol_totals : List (String × ℚ)) (symbols : List String) :
    Except String (Option ℚ × List String × List (String × ℚ)) :=
  let p := partitionSymbols dune_symbol_totals [] [] symbols
  match dictGet p.2 "usdc" with
  | Option.none => Except.ok (Option.none, p.1, p.2)
  | some usdc_total =>
    let denominator := (p.2.map Prod.snd).sum
    if denominator ≤ 0 then Except.error "Dune denominator volume is zero"
    else Except.ok (some (usdc_total / denominator), p.1, p.2)

/-- The mapping-shaped rows kept from one result page
(`for row in page_rows: if isinstance(row, dict): rows.append(row)`). -/
def dunePageDictRows (page_rows : List PyVal) : List DuneRow :=
  page_rows.filterMap fun r =>
    match r with
    | PyVal.dict d => some d
    | _ => Option.none

/-- The `while True` pagination loop of `fetch_dune_result_rows`. The provider
is a function from the requested `offset` to the JSON payload it returns;
`fuel` bounds the number of requests the model can observe, and `Option.none`
means the loop was still following cursors when the fuel ran out. -/
def fetch_dune_rows_loop (server : ℤ → PyVal) :
    Nat → ℤ → List DuneRow → Option (Except String (List DuneRow))
  | 0, _, _ => Option.none
  | fuel + 1, offset, rows =>
    match server offset with
    | PyVal.dict result_payload =>
      match (dictGet result_payload "result").getD PyVal.none with
      | PyVal.dict result =>
        match (dictGet result "rows").getD PyVal.none with
        | PyVal.list page_rows =>
          let rows' := rows ++ dunePageDictRows page_rows
          match (dictGet result_payload "next_offset").getD PyVal.none with
          | PyVal.none => some (Except.ok rows')
          | next_offset =>
            match pyInt next_offset with
            | some n => fetch_dune_rows_loop server fuel n rows'
            | Option.none => some (Except.error "TypeError: int() of next_offset failed")
        | _ => some (Except.error "Dune result payload has invalid rows structure")
      | _ => some (Except.error "Dune result payload is missing result rows")
    | _ => some (Except.error "AttributeError: result payload is not an object")

/-- `fetch_dune_result_rows`: run the pagination loop from offset 0, then
apply the `if not rows: raise` emptiness check. -/
def fetch_dune_result_rows (server : ℤ → PyVal) (fuel : Nat) :
    Option (Except String (List DuneRow)) :=
  match fetch_dune_rows_loop server fuel 0 [] with
  | Option.none => Option.none
  | some (Except.error e) => some (Except.error e)
  | some (Except.ok rows) =>
    some (if rows.isEmpty then Except.error "Dune query returned no rows" else Except.ok rows)

/-! ### History store: `load_history` and `save_history` -/

/-- The persisted history document as seen by `load_history`, abstracted at
the JSON level: the file may be absent, contain only whitespace, contain text
that `json.loads` rejects, or contain a parsed JSON value. -/
inductive StoredDoc : Type where
  | missing : StoredDoc
  | blank : StoredDoc
  | invalidJson : StoredDoc
  | json (v : PyVal) : StoredDoc

/-- `load_history`. -/
def load_history : StoredDoc → Except String (List (List (String × PyVal)))
  | StoredDoc.missing => Except.ok []
  | StoredDoc.blank => Except.ok []
  | StoredDoc.invalidJson => Except.error "Invalid JSON in data/weekly_history.json"
  | StoredDoc.json v =>
    match v with
    | PyVal.list items =>
      Except.ok
        (items.filterMap fun item =>
          match item with
          | PyVal.dict d => some d
          | _ => Option.none)
    | _ => Except.error "History file must contain a JSON array: data/weekly_history.json"

/-- `MAX_HISTORY_ITEMS`. -/
def MAX_HISTORY_ITEMS : Nat := 52

/-- `save_history`, modeled by the content it persists: the file receives
`history[-MAX_HISTORY_ITEMS:]` (directory creation and the JSON encoding of
the write are I/O plumbing outside the data contract). -/
def save_history {α : Type} (history : List α) : List α :=
  history.drop (history.length - MAX_HISTORY_ITEMS)

/-! ### Metrics, formatting, week-over-week deltas -/

/-- The four fixed metric names of `METRIC_SPECS`, in iteration order. -/
inductive MetricName : Type where
  | total_supply_usd : MetricName
  | usdc_supply_usd : MetricName
  | usdc_supply_share : MetricName
  | usdc_transfer_volume_share_7d : MetricName
deriving DecidableEq

/-- The `kind` field of `METRIC_SPECS`. -/
inductive MetricKind : Type where
  | currency : MetricKind
  | share : MetricKind
deriving DecidableEq

/-- `METRIC_SPECS[name]["kind"]`. -/
def metricKind : MetricName → MetricKind
  | MetricName.total_supply_usd => MetricKind.currency
  | MetricName.usdc_supply_usd => MetricKind.currency
  | MetricName.usdc_supply_share => MetricKind.share
  | MetricName.usdc_transfer_volume_share_7d => MetricKind.share

/-- The JSON key of a metric. -/
def metricNameStr : MetricName → String
  | MetricName.total_supply_usd => "total_supply_usd"
  | MetricName.usdc_supply_usd => "usdc_supply_usd"
  | MetricName.usdc_supply_share => "usdc_supply_share"
  | MetricName.usdc_transfer_volume_share_7d => "usdc_transfer_volume_share_7d"

/-- Left-pad the two fractional digits. -/
def pad2 (n : Nat) : String := if n < 10 then "0" ++ toString n else toString n

/-- Python `f"{x:+.2f}"`: forced sign, two decimals. Rounding at the exact
half is modeled as round-half-up (CPython rounds the underlying binary double
half-to-even); the negative-zero rendering `-0.00` is likewise abstracted to
`+0.00`. No claim sits at either edge. -/
def fmtPlus2 (x : ℚ) : String :=
  let scaled : ℤ := Int.floor (x * 100 + 1 / 2)
  let sign := if scaled < 0 then "-" else "+"
  sign ++ toString (scaled.natAbs / 100) ++ "." ++ pad2 (scaled.natAbs % 100)

/-- `format_wow`. `f"{delta_pp:+.2f}pp"` for share metrics,
`f"{change_ratio:+.2%}"` (ratio × 100, two decimals, percent sign) for
currency metrics. -/
def format_wow (metric_name : MetricName) (current previous : Option ℚ) : String :=
  match current, previous with
  | some c, some p =>
    if metricKind metric_name = MetricKind.share then fmtPlus2 ((c - p) * 100) ++ "pp"
    else if p = 0 then "N/A"
    else fmtPlus2 ((c - p) / p * 100) ++ "%"
  | _, _ => "N/A"

/-- `build_wow_map`, per metric: coerce the raw previous value with `float`
(`None`, absent, or unparseable previous becomes unavailable), then apply
`format_wow`. -/
def build_wow_map (current_metrics : MetricName → Option ℚ)
    (previous_metrics : Option (List (String × PyVal))) (m : MetricName) : String :=
  let previous_value : Option ℚ :=
    match previous_metrics with
    | Option.none => Option.none
    | some d =>
      match dictGet d (metricNameStr m) with
      | Option.none => Option.none
      | some PyVal.none => Option.none
      | some raw => pyFloat raw
  format_wow m (current_metrics m) previous_value

/-! ### The run pipeline (`run_report`), from fetched payloads to outcome -/

/-- All-unavailable initial `partial_metrics`. -/
def initMetrics : MetricName → Option ℚ := fun _ => Option.none

/-- Update one entry of the metrics mapping. -/
def setMetric (m : MetricName → Option ℚ) (k : MetricName) (v : Option ℚ) :
    MetricName → Option ℚ :=
  fun k' => if k' = k then v else m k'

/-- Observable outcome of a run: the process exit code, the metrics mapping
as accumulated when the run ended, the `missing_symbols` list, and the error
message carried into the failure-notification path (`Option.none` on the
success path). -/
structure RunOutcome : Type where
  exitCode : Nat
  metrics : MetricName → Option ℚ
  missingSymbols : List String
  failure : Option String

/-- The data path of `run_report` after the provider payloads are in hand:
`pegged_assets` and `chart_points` are the fetched DefiLlama payloads,
`dune_rows` is the outcome of the execute/poll/fetch sequence against Dune,
and `history` is the persisted history document. Notification delivery is
modeled as succeeding; it does not affect the exit code on the failure path
and the claims under study concern the data path. -/
def run_report_core (pegged_assets : List Asset) (chart_points : List ChartPoint)
    (dune_rows : Except String (List DuneRow)) (history : StoredDoc) : RunOutcome :=
  let m0 := initMetrics
  match build_top20_symbols_and_usdc_supply pegged_assets with
  | Except.error e => ⟨1, m0, [], some e⟩
  | Except.ok (top_symbols, usdc_supply_usd) =>
    match get_total_supply_usd chart_points with
    | Except.error e => ⟨1, m0, [], some e⟩
    | Except.ok total_supply_usd =>
      let m1 :=
        setMetric
          (setMetric (setMetric m0 MetricName.total_supply_usd (some total_supply_usd))
            MetricName.usdc_supply_usd (some usdc_supply_usd))
          MetricName.usdc_supply_share (some (usdc_supply_usd / total_supply_usd))
      match dune_rows with
      | Except.error e => ⟨1, m1, [], some e⟩
      | Except.ok rows =>
        match extract_dune_symbol_totals rows with
        | Except.error e => ⟨1, m1, [], some e⟩
        | Except.ok dune_symbol_totals =>
          match compute_dune_share dune_symbol_totals top_symbols with
          | Except.error e => ⟨1, m1, [], some e⟩
          | Except.ok (volume_share, missing_symbols, _) =>
            let m2 := setMetric m1 MetricName.usdc_transfer_volume_share_7d volume_share
            match volume_share with
            | Option.none =>
              ⟨1, m2, missing_symbols,
                some "Dune query result did not include usable USDC transfer volume data"⟩
            | some _ =>
              match load_history history with
              | Except.error e => ⟨1, m2, missing_symbols, some e⟩
              | Except.ok _ => ⟨0, m2, missing_symbols, Option.none⟩

/-! ### Shared lemmas -/

lemma dictGet_dictSet {α : Type} (d : List (String × α)) (k k' : String) (v : α) :
    dictGet (dictSet d k v) k' = if k = k' then some v else dictGet d k' := by
  induction d with
  | nil => simp [dictGet, dictSet]
  | cons p rest ih =>
    by_cases hpk : p.1 = k
    · simp only [dictSet, if_pos hpk, dictGet]
      by_cases hkk : k = k'
      · simp [hkk]
      · have : p.1 ≠ k' := by rw [hpk]; exact hkk
        simp [hkk, dictGet, this]
    · simp only [dictSet, if_neg hpk, dictGet]
      by_cases hpk' : p.1 = k'
      · have : k ≠ k' := fun h => hpk (h ▸ hpk')
        simp [hpk', this]
      · simp [hpk', ih]

lemma partitionSymbols_get (totals : List (String × ℚ)) (k : String) :
    ∀ (syms : List String) (ms : List String) (dt : List (String × ℚ)),
      dictGet (partitionSymbols totals ms dt syms).2 k =
        if k ∈ syms ∧ (dictGet totals k).isSome then dictGet totals k
        else dictGet dt k := by
  intro syms
  induction syms with
  | nil => intro ms dt; simp [partitionSymbols]
  | cons s rest ih =>
    intro ms dt
    by_cases hks : k = s
    · subst hks
      cases htot : dictGet totals k with
      | none =>
        simp only [partitionSymbols, htot, ih]
        simp [htot]
      | some v =>
        simp only [partitionSymbols, htot, ih]
        by_cases hmem : k ∈ rest
        · simp [hmem, htot]
        · simp [hmem, htot, dictGet_dictSet]
    · cases htot : dictGet totals s with
      | none =>
        simp only [partitionSymbols, htot, ih]
        simp [List.mem_cons, hks]
      | some v =>
        simp only [partitionSymbols, htot, ih]
        have hsk : s ≠ k := fun h => hks h.symm
        have hget : dictGet (dictSet dt s v) k = dictGet dt k := by
          rw [dictGet_dictSet, if_neg hsk]
        simp [List.mem_cons, hks, hget]

/-! ### Claim C2 -/

/-- Claim C2: `compute_dune_share` with totals `{usdc: 40, usdt: 60}` and top
set `[usdc, usdt]` returns the share `0.4`; when `usdc` is absent from the
totals restricted to the top set it returns an unavailable share without
raising; and when `usdc` is present but the present symbols' totals sum to
zero it raises `DataUnavailable` (division-by-zero guard). -/
theorem c2_compute_dune_share :
    compute_dune_share [("usdc", 40), ("usdt", 60)] ["usdc", "usdt"] =
      Except.ok (some 0.4, [], [("usdc", 40), ("usdt", 60)])
    ∧ (∀ (totals : List (String × ℚ)) (symbols : List String),
        ("usdc" ∉ symbols ∨ dictGet totals "usdc" = Option.none) →
        ∃ ms dt, compute_dune_share totals symbols = Except.ok (Option.none, ms, dt))
    ∧ (∀ (totals : List (String × ℚ)) (symbols : List String) (u : ℚ),
        dictGet (partitionSymbols totals [] [] symbols).2 "usdc" = some u →
        ((partitionSymbols totals [] [] symbols).2.map Prod.snd).sum = 0 →
        compute_dune_share totals symbols = Except.error "Dune denominator volume is zero") := by
  refine ⟨rfl, ?_, ?_⟩
  · intro totals symbols h
    have habs : dictGet (partitionSymbols totals [] [] symbols).2 "usdc" = Option.none := by
      rw [partitionSymbols_get]
      rcases h with h | h
      · simp [h, dictGet]
      · simp [h, dictGet]
    refine ⟨(partitionSymbols totals [] [] symbols).1,
      (partitionSymbols totals [] [] symbols).2, ?_⟩
    simp [compute_dune_share, habs]
  · intro totals symbols u hu hsum
    simp [compute_dune_share, hu, hsum]

/-- Witness for claim C2's conditional parts at concrete inputs. -/
theorem c2_compute_dune_share_witness :
    (∃ ms dt, compute_dune_share [("usdt", 5)] ["usdc", "usdt"] =
      Except.ok (Option.none, ms, dt))
    ∧ compute_dune_share [("usdc", 0), ("usdt", 0)] ["usdc", "usdt"] =
        Except.error "Dune denominator volume is zero" :=
  ⟨c2_compute_dune_share.2.1 [("usdt", 5)] ["usdc", "usdt"] (Or.inr rfl),
   c2_compute_dune_share.2.2 [("usdc", 0), ("usdt", 0)] ["usdc", "usdt"] 0 rfl rfl⟩

/-! ### Claim C7 -/

/-- Claim C7: saving after appending a new entry persists at most 52 entries
with FIFO eviction; appending a 53rd entry to a full 52-entry history yields
exactly 52 persisted entries with the oldest removed and the order of the
rest preserved. -/
theorem c7_history_truncation {α : Type} (h : List α) (e : α) :
    (save_history (h ++ [e])).length ≤ 52
    ∧ (h.length = 52 →
        save_history (h ++ [e]) = h.drop 1 ++ [e]
        ∧ (save_history (h ++ [e])).length = 52) := by
  constructor
  · simp only [save_history, MAX_HISTORY_ITEMS, List.length_drop]
    omega
  · intro h52
    have hlen : (h ++ [e]).length = 53 := by simp [h52]
    have hdrop : save_history (h ++ [e]) = (h ++ [e]).drop 1 := by
      simp [save_history, MAX_HISTORY_ITEMS, hlen]
    have happ : (h ++ [e]).drop 1 = h.drop 1 ++ [e] :=
      List.drop_append_of_le_length (by omega)
    refine ⟨hdrop.trans happ, ?_⟩
    rw [hdrop]
    simp [hlen]

/-- Witness for claim C7 at a concrete full history. -/
theorem c7_history_truncation_witness :
    save_history (List.range 52 ++ [99]) = (List.range 52).drop 1 ++ [99]
    ∧ (save_history (List.range 52 ++ [99])).length = 52 :=
  (c7_history_truncation (List.range 52) 99).2 (by simp)

/-! ### Claim C8 -/

/-- Claim C8: a missing side makes the delta unavailable; for every
currency-kind metric and every pair with nonzero previous, the delta is the
relative percentage change `(c - p) / p`, with the concrete anchors 100 → 150
formatting as `+50.00%` and 200 → 300 formatting as `+50.00%` (a relative
change — an absolute difference would print `+100.00`); a zero previous for a
currency metric is unavailable, not infinite; for every share-kind metric the
delta is the absolute percentage-point difference, with 0.40 → 0.45
formatting as `+5.00pp`; and `build_wow_map` reports every metric unavailable
when there is no previous snapshot. -/
theorem c8_wow_deltas :
    (∀ (m : MetricName) (c p : Option ℚ), c = Option.none ∨ p = Option.none →
      format_wow m c p = "N/A")
    ∧ format_wow MetricName.total_supply_usd (some 150) (some 100) = "+50.00%"
    ∧ (∀ (m : MetricName) (c : ℚ), metricKind m = MetricKind.currency →
        format_wow m (some c) (some 0) = "N/A")
    ∧ format_wow MetricName.usdc_supply_share (some 0.45) (some 0.40) = "+5.00pp"
    ∧ (∀ (m : MetricName) (c p : ℚ), metricKind m = MetricKind.share →
        format_wow m (some c) (some p) = fmtPlus2 ((c - p) * 100) ++ "pp")
    ∧ (∀ (m : MetricName) (c p : ℚ), metricKind m = MetricKind.currency → p ≠ 0 →
        format_wow m (some c) (some p) = fmtPlus2 ((c - p) / p * 100) ++ "%")
    ∧ format_wow MetricName.total_supply_usd (some 300) (some 200) = "+50.00%"
    ∧ (∀ (cur : MetricName → Option ℚ) (m : MetricName),
        build_wow_map cur Option.none m = format_wow m (cur m) Option.none) := by
  refine ⟨?_, by decide, ?_, by decide, ?_, ?_, by decide, ?_⟩
  · intro m c p h
    rcases h with h | h <;> subst h
    · rfl
    · cases c <;> rfl
  · intro m c h
    simp [format_wow, h]
  · intro m c p h
    simp [format_wow, h]
  · intro m c p h hp
    simp [format_wow, h, hp]
  · intro cur m
    rfl

/-- Witness for claim C8's conditional parts at concrete inputs; the currency
instance 4 → 5 is non-degenerate (relative change 25%, absolute difference
1). -/
theorem c8_wow_deltas_witness :
    format_wow MetricName.usdc_supply_share Option.none (some 3) = "N/A"
    ∧ format_wow MetricName.usdc_supply_usd (some 7) (some 0) = "N/A"
    ∧ format_wow MetricName.usdc_supply_share (some 1) (some 2) =
        fmtPlus2 ((1 - 2) * 100) ++ "pp"
    ∧ format_wow MetricName.usdc_supply_usd (some 5) (some 4) =
        fmtPlus2 ((5 - 4) / 4 * 100) ++ "%" :=
  ⟨c8_wow_deltas.1 MetricName.usdc_supply_share Option.none (some 3) (Or.inl rfl),
   c8_wow_deltas.2.2.1 MetricName.usdc_supply_usd 7 rfl,
   c8_wow_deltas.2.2.2.2.1 MetricName.usdc_supply_share 1 2 rfl,
   c8_wow_deltas.2.2.2.2.2.1 MetricName.usdc_supply_usd 5 4 rfl (by decide)⟩

/-! ### Claim C10 -/

/-- Claim C10: extracting an asset's USD-pegged circulating amount is total
(a Lean function) and maps a missing, null, or unparseable circulating field
to `0.0`; such an asset still participates in the top-20 selection's
`usd_assets` pool (and hence in USDC candidate collection) instead of
aborting the run. -/
theorem c10_circulating_total :
    get_pegged_usd_circulating PyVal.none = 0
    ∧ (∀ v : PyVal, pyFloat (circValue v) = Option.none →
        get_pegged_usd_circulating v = 0)
    ∧ (∀ (assets : List Asset) (a : Asset), a ∈ assets →
        a.pegType = some "peggedUSD" → symbolString a ≠ "" →
        (symbolString a, get_pegged_usd_circulating a.circulating) ∈ usdAssets assets) := by
  refine ⟨rfl, ?_, ?_⟩
  · intro v h
    simp [get_pegged_usd_circulating, h]
  · intro assets a ha hp hs
    refine List.mem_filterMap.mpr ⟨a, ha, ?_⟩
    simp [usdAssetEntry, hp, hs]

/-- Witness for claim C10 at a concrete unparseable asset. -/
theorem c10_circulating_total_witness :
    get_pegged_usd_circulating (PyVal.str "not a number") = 0
    ∧ (symbolString ⟨some "peggedUSD", some "FRAX", PyVal.str "not a number"⟩,
        get_pegged_usd_circulating (PyVal.str "not a number")) ∈
        usdAssets [⟨some "peggedUSD", some "FRAX", PyVal.str "not a number"⟩] :=
  ⟨c10_circulating_total.2.1 (PyVal.str "not a number") rfl,
   c10_circulating_total.2.2 [⟨some "peggedUSD", some "FRAX", PyVal.str "not a number"⟩]
     ⟨some "peggedUSD", some "FRAX", PyVal.str "not a number"⟩ (List.mem_singleton.mpr rfl)
     rfl (by decide)⟩

/-! ### Claim C6 -/

/-- `True` on the result of `load_history` exactly when it raised
`WeeklyReportError` (`DataUnavailable`). -/
def isDataUnavailable {α : Type} : Except String α → Bool
  | Except.error _ => true
  | Except.ok _ => false

/-- Modelled from the spec: a persisted history document whose content is a
well-formed list of structured (mapping-shaped) records — with the spec's
carve-out that a missing or empty file is valid. -/
def historyContentWellFormed : StoredDoc → Bool
  | StoredDoc.missing => true
  | StoredDoc.blank => true
  | StoredDoc.json (PyVal.list items) =>
    items.all fun item =>
      match item with
      | PyVal.dict _ => true
      | _ => false
  | _ => false

/-- Claim C6, as stated, is false: a JSON array containing a non-mapping
record is not a well-formed list of structured records, yet `load_history`
succeeds and silently drops the record instead of failing. -/
theorem c6_load_history_counterexample :
    ¬ (∀ d : StoredDoc, historyContentWellFormed d = false →
        isDataUnavailable (load_history d) = true) := by
  intro hclaim
  exact absurd (hclaim (StoredDoc.json (PyVal.list [PyVal.num 1])) rfl) (by decide)

/-- Claim C6 amended: `load_history` fails with `DataUnavailable` when the
persisted content is unparseable JSON or parses to a non-array value; a
parsed array loads by keeping exactly its mapping-shaped items, silently
dropping any non-mapping items; a missing or blank file loads as the empty
history. -/
theorem c6_load_history :
    load_history StoredDoc.missing = Except.ok []
    ∧ load_history StoredDoc.blank = Except.ok []
    ∧ isDataUnavailable (load_history StoredDoc.invalidJson) = true
    ∧ (∀ v : PyVal, (∀ items, v ≠ PyVal.list items) →
        isDataUnavailable (load_history (StoredDoc.json v)) = true)
    ∧ (∀ items : List PyVal,
        load_history (StoredDoc.json (PyVal.list items)) =
          Except.ok (items.filterMap fun item =>
            match item with
            | PyVal.dict d => some d
            | _ => Option.none)) := by
  refine ⟨rfl, rfl, rfl, ?_, fun items => rfl⟩
  intro v hv
  cases v with
  | list items => exact absurd rfl (hv items)
  | none => rfl
  | bool b => rfl
  | num q => rfl
  | str s => rfl
  | dict d => rfl

/-- Witness for claim C6's conditional part: a JSON number is not an array,
so loading fails. -/
theorem c6_load_history_witness :
    isDataUnavailable (load_history (StoredDoc.json (PyVal.num 3))) = true :=
  c6_load_history.2.2.2.1 (PyVal.num 3) (fun _ h => PyVal.noConfusion h)

/-! ### Claim C5 -/

/-- Claim C5: pagination terminates exactly on an absent `next_offset`
cursor — even when the final page is non-empty — and continues to the next
offset whenever the cursor is present, regardless of how short the page is;
non-mapping rows are silently skipped while mapping rows are kept; and a run
that collected zero rows over all pages fails with `DataUnavailable`. -/
theorem c5_pagination :
    (∀ (server : ℤ → PyVal) (fuel : Nat) (offset : ℤ) (acc : List DuneRow)
        (result_payload : List (String × PyVal)) (result : List (String × PyVal))
        (page_rows : List PyVal),
      server offset = PyVal.dict result_payload →
      (dictGet result_payload "result").getD PyVal.none = PyVal.dict result →
      (dictGet result "rows").getD PyVal.none = PyVal.list page_rows →
      (dictGet result_payload "next_offset").getD PyVal.none = PyVal.none →
      fetch_dune_rows_loop server (fuel + 1) offset acc =
        some (Except.ok (acc ++ dunePageDictRows page_rows)))
    ∧ (∀ (server : ℤ → PyVal) (fuel : Nat) (offset : ℤ) (acc : List DuneRow)
        (result_payload : List (String × PyVal)) (result : List (String × PyVal))
        (page_rows : List PyVal) (v : PyVal) (n : ℤ),
      server offset = PyVal.dict result_payload →
      (dictGet result_payload "result").getD PyVal.none = PyVal.dict result →
      (dictGet result "rows").getD PyVal.none = PyVal.list page_rows →
      (dictGet result_payload "next_offset").getD PyVal.none = v →
      v ≠ PyVal.none →
      pyInt v = some n →
      fetch_dune_rows_loop server (fuel + 1) offset acc =
        fetch_dune_rows_loop server fuel n (acc ++ dunePageDictRows page_rows))
    ∧ (∀ (items : List PyVal) (d : List (String × PyVal)),
        dunePageDictRows (PyVal.dict d :: items) = d :: dunePageDictRows items)
    ∧ (∀ (items : List PyVal) (v : PyVal), (∀ d, v ≠ PyVal.dict d) →
        dunePageDictRows (v :: items) = dunePageDictRows items)
    ∧ (∀ (server : ℤ → PyVal) (fuel : Nat) (rows : List DuneRow),
        fetch_dune_result_rows server fuel = some (Except.ok rows) → rows ≠ [])
    ∧ (∀ (server : ℤ → PyVal) (fuel : Nat),
        fetch_dune_rows_loop server fuel 0 [] = some (Except.ok []) →
        fetch_dune_result_rows server fuel =
          some (Except.error "Dune query returned no rows")) := by
  refine ⟨?_, ?_, ?_, ?_, ?_, ?_⟩
  · intro server fuel offset acc result_payload result page_rows hs hr hrows hcur
    simp [fetch_dune_rows_loop, hs, hr, hrows, hcur]
  · intro server fuel offset acc result_payload result page_rows v n hs hr hrows hcur hvn hint
    cases v with
    | none => exact absurd rfl hvn
    | bool b => simp [fetch_dune_rows_loop, hs, hr, hrows, hcur, hint]
    | num q => simp [fetch_dune_rows_loop, hs, hr, hrows, hcur, hint]
    | str s => simp [fetch_dune_rows_loop, hs, hr, hrows, hcur, hint]
    | list items => simp [fetch_dune_rows_loop, hs, hr, hrows, hcur, hint]
    | dict d => simp [fetch_dune_rows_loop, hs, hr, hrows, hcur, hint]
  · intro items d
    rfl
  · intro items v hv
    cases v with
    | dict d => exact absurd rfl (hv d)
    | none => rfl
    | bool b => rfl
    | num q => rfl
    | str s => rfl
    | list l => rfl
  · intro server fuel rows h
    unfold fetch_dune_result_rows at h
    cases hloop : fetch_dune_rows_loop server fuel 0 [] with
    | none => rw [hloop] at h; exact Option.noConfusion h
    | some res =>
      rw [hloop] at h
      cases res with
      | error e => simp at h
      | ok r =>
        by_cases hre : r.isEmpty
        · simp [hre] at h
        · simp [hre] at h
          rw [← h]
          exact fun hnil => hre (by simp [hnil])
  · intro server fuel h
    simp [fetch_dune_result_rows, h]

/-! ### Claim C9 -/

/-- The multiset of volume contributions the rows make to symbol `s`, in row
order. -/
def symbolContribs (rows : List DuneRow) (s : String) : List ℚ :=
  rows.filterMap fun row =>
    match rowContribution row with
    | some sv => if sv.1 = s then some sv.2 else Option.none
    | Option.none => Option.none

lemma extract_loop_get (s : String) :
    ∀ (rows : List DuneRow) (t0 : List (String × ℚ)),
      dictGet (rows.foldl addRowContribution t0) s =
        if symbolContribs rows s = [] then dictGet t0 s
        else some ((dictGet t0 s).getD 0 + (symbolContribs rows s).sum) := by
  intro rows
  induction rows with
  | nil => intro t0; simp [symbolContribs]
  | cons row rest ih =>
    intro t0
    rw [List.foldl_cons]
    cases hc : rowContribution row with
    | none =>
      have hstep : addRowContribution t0 row = t0 := by
        simp [addRowContribution, hc]
      have hcon : symbolContribs (row :: rest) s = symbolContribs rest s := by
        simp [symbolContribs, List.filterMap_cons, hc]
      rw [hstep, hcon, ih]
    | some sv =>
      obtain ⟨s', v⟩ := sv
      have hstep : addRowContribution t0 row =
          dictSet t0 s' ((dictGet t0 s').getD 0 + v) := by
        simp [addRowContribution, hc]
      by_cases hss : s' = s
      · subst hss
        have hcon : symbolContribs (row :: rest) s' = v :: symbolContribs rest s' := by
          simp [symbolContribs, List.filterMap_cons, hc]
        have hget : dictGet (dictSet t0 s' ((dictGet t0 s').getD 0 + v)) s' =
            some ((dictGet t0 s').getD 0 + v) := by
          rw [dictGet_dictSet, if_pos rfl]
        rw [hstep, hcon, ih, hget]
        by_cases hrest : symbolContribs rest s' = []
        · simp [hrest]
        · simp only [hrest, if_neg hrest, List.sum_cons]
          simp only [List.cons_ne_nil, if_neg (by simp : ¬ v :: symbolContribs rest s' = [])]
          rw [Option.getD_some]
          ring_nf
          simp
      · have hcon : symbolContribs (row :: rest) s = symbolContribs rest s := by
          simp [symbolContribs, List.filterMap_cons, hc, hss]
        have hget : dictGet (dictSet t0 s' ((dictGet t0 s').getD 0 + v)) s =
            dictGet t0 s := by
          rw [dictGet_dictSet, if_neg hss]
        rw [hstep, hcon, ih, hget]

lemma extract_totals_get (rows : List DuneRow) (s : String) :
    dictGet (extract_totals_loop rows) s =
      if symbolContribs rows s = [] then Option.none
      else some ((symbolContribs rows s).sum) := by
  have h := extract_loop_get s rows []
  rw [extract_totals_loop]
  rw [h]
  by_cases hc : symbolContribs rows s = []
  · simp [hc, dictGet]
  · simp [hc, dictGet]

/-- Claim C9: aggregation into per-symbol volume totals is order-independent
and commutative — permuting the result rows yields the same mapping from
symbol to summed volume (and in particular the same zero-total fatality
condition). -/
theorem c9_totals_order_independent (rows rows' : List DuneRow) (hperm : rows.Perm rows') :
    (∀ s, dictGet (extract_totals_loop rows) s = dictGet (extract_totals_loop rows') s)
    ∧ (extract_totals_loop rows = [] ↔ extract_totals_loop rows' = []) := by
  have hget : ∀ s, dictGet (extract_totals_loop rows) s =
      dictGet (extract_totals_loop rows') s := by
    intro s
    have hc : (symbolContribs rows s).Perm (symbolContribs rows' s) :=
      hperm.filterMap _
    have hnil : symbolContribs rows s = [] ↔ symbolContribs rows' s = [] := by
      constructor
      · intro h; exact List.Perm.eq_nil (h ▸ hc).symm
      · intro h; exact List.Perm.eq_nil (h ▸ hc)
    rw [extract_totals_get, extract_totals_get]
    by_cases h : symbolContribs rows s = []
    · simp [h, hnil.mp h]
    · have h' : ¬ symbolContribs rows' s = [] := fun hh => h (hnil.mpr hh)
      simp only [if_neg h, if_neg h']
      rw [hc.sum_eq]
  have hempty : ∀ t : List (String × ℚ), t = [] ↔ ∀ s, dictGet t s = Option.none := by
    intro t
    constructor
    · intro h s; simp [h, dictGet]
    · intro h
      cases t with
      | nil => rfl
      | cons p rest =>
        have := h p.1
        rw [dictGet, if_pos rfl] at this
        exact Option.noConfusion this
  refine ⟨hget, ?_⟩
  rw [hempty (extract_totals_loop rows), hempty (extract_totals_loop rows')]
  constructor
  · intro h s; rw [← hget s]; exact h s
  · intro h s; rw [hget s]; exact h s

/-- Witness for claim C9 at a concrete two-row permutation. -/
theorem c9_totals_order_independent_witness :
    (∀ s, dictGet (extract_totals_loop
        [[("symbol", PyVal.str "usdc"), ("volume", PyVal.num 4)],
         [("symbol", PyVal.str "usdt"), ("volume", PyVal.num 6)]]) s =
      dictGet (extract_totals_loop
        [[("symbol", PyVal.str "usdt"), ("volume", PyVal.num 6)],
         [("symbol", PyVal.str "usdc"), ("volume", PyVal.num 4)]]) s)
    ∧ (extract_totals_loop
        [[("symbol", PyVal.str "usdc"), ("volume", PyVal.num 4)],
         [("symbol", PyVal.str "usdt"), ("volume", PyVal.num 6)]] = [] ↔
       extract_totals_loop
        [[("symbol", PyVal.str "usdt"), ("volume", PyVal.num 6)],
         [("symbol", PyVal.str "usdc"), ("volume", PyVal.num 4)]] = []) :=
  c9_totals_order_independent _ _
    (List.Perm.swap [("symbol", PyVal.str "usdt"), ("volume", PyVal.num 6)]
      [("symbol", PyVal.str "usdc"), ("volume", PyVal.num 4)] [])

/-- Concrete first page for the C5 witness: one mapping row, one malformed
row, a present cursor. -/
def c5Page0 : PyVal :=
  PyVal.dict
    [("result", PyVal.dict [("rows", PyVal.list
        [PyVal.dict [("symbol", PyVal.str "usdt"), ("volume", PyVal.num 3)],
         PyVal.num 7])]),
     ("next_offset", PyVal.num 1000)]

/-- Concrete final page for the C5 witness: non-empty rows, absent cursor. -/
def c5Page1 : PyVal :=
  PyVal.dict
    [("result", PyVal.dict [("rows", PyVal.list
        [PyVal.dict [("symbol", PyVal.str "dai")]])])]

/-- Concrete two-page provider for the C5 witness. -/
def c5Server : ℤ → PyVal :=
  fun o => if o = 0 then c5Page0 else if o = 1000 then c5Page1 else PyVal.none

/-- Witness for claim C5 on a concrete provider: the loop follows the present
cursor of the short first page, terminates on the cursor-less non-empty final
page, skips the malformed row, and the whole fetch never returns an empty
`ok`. -/
theorem c5_pagination_witness :
    fetch_dune_rows_loop c5Server 2 0 [] =
      fetch_dune_rows_loop c5Server 1 1000 [[("symbol", PyVal.str "usdt"), ("volume", PyVal.num 3)]]
    ∧ fetch_dune_rows_loop c5Server 1 1000 [[("symbol", PyVal.str "usdt"), ("volume", PyVal.num 3)]] =
        some (Except.ok [[("symbol", PyVal.str "usdt"), ("volume", PyVal.num 3)],
                         [("symbol", PyVal.str "dai")]])
    ∧ dunePageDictRows (PyVal.num 7 :: [PyVal.dict [("symbol", PyVal.str "dai")]]) =
        dunePageDictRows [PyVal.dict [("symbol", PyVal.str "dai")]]
    ∧ [[("symbol", PyVal.str "usdt"), ("volume", PyVal.num 3)],
       [("symbol", PyVal.str "dai")]] ≠ ([] : List DuneRow)
    ∧ fetch_dune_result_rows
        (fun _ => PyVal.dict [("result", PyVal.dict [("rows", PyVal.list [])])]) 1 =
        some (Except.error "Dune query returned no rows") :=
  ⟨c5_pagination.2.1 c5Server 1 0 [] _ _ _ (PyVal.num 1000) 1000 rfl rfl rfl rfl
      (fun h => PyVal.noConfusion h) rfl,
   c5_pagination.1 c5Server 0 1000 [[("symbol", PyVal.str "usdt"), ("volume", PyVal.num 3)]]
      _ _ _ rfl rfl rfl rfl,
   c5_pagination.2.2.2.1 [PyVal.dict [("symbol", PyVal.str "dai")]] (PyVal.num 7)
      (fun _ h => PyVal.noConfusion h),
   c5_pagination.2.2.2.2.1 c5Server 2 _ rfl,
   c5_pagination.2.2.2.2.2
      (fun _ => PyVal.dict [("result", PyVal.dict [("rows", PyVal.list [])])]) 1 rfl⟩

/-! ### Claim C3: lemmas relating the source loop to the spec pipeline -/

lemma lowerStr_eq_empty (s : String) : lowerStr s = "" ↔ s = "" := by
  cases s with
  | mk data =>
    constructor
    · intro h
      have hd : data.map Char.toLower = [] := by
        have := congrArg String.data h
        simpa [lowerStr] using this
      have hdata : data = [] := by simpa using hd
      rw [hdata]
    · intro h
      rw [h]
      rfl

lemma orderedInsert_map_lowerFst (p : String × ℚ) (l : List (String × ℚ)) :
    List.orderedInsert descBySnd (lowerFst p) (l.map lowerFst) =
      (List.orderedInsert descBySnd p l).map lowerFst := by
  induction l with
  | nil => rfl
  | cons q t ih =>
    simp only [List.map_cons, List.orderedInsert]
    by_cases h : descBySnd p q
    · rw [if_pos h, if_pos (show descBySnd (lowerFst p) (lowerFst q) from h)]
      simp
    · rw [if_neg h, if_neg (show ¬ descBySnd (lowerFst p) (lowerFst q) from h)]
      rw [ih]
      simp

lemma insertionSort_map_lowerFst (l : List (String × ℚ)) :
    sortDescBySnd (l.map lowerFst) = (sortDescBySnd l).map lowerFst := by
  induction l with
  | nil => rfl
  | cons p t ih =>
    simp only [sortDescBySnd, List.map_cons, List.insertionSort] at *
    rw [ih, orderedInsert_map_lowerFst]

lemma specNormalizedAssets_eq (assets : List Asset) :
    specNormalizedAssets assets = (usdAssets assets).map lowerFst := by
  rw [specNormalizedAssets, usdAssets, List.map_filterMap]
  apply List.filterMap_congr
  intro a _
  by_cases hp : a.pegType = some "peggedUSD"
  · by_cases hs : symbolString a = ""
    · have : lowerStr (symbolString a) = "" := (lowerStr_eq_empty _).mpr hs
      simp [usdAssetEntry, hp, hs, this]
      rfl
    · have : ¬ lowerStr (symbolString a) = "" := fun h => hs ((lowerStr_eq_empty _).mp h)
      simp [usdAssetEntry, hp, hs, this, lowerFst]
  · simp [usdAssetEntry, hp]

lemma dedupByKey_congr_seen :
    ∀ (l : List (String × ℚ)) (seen1 seen2 : List String),
      (∀ x, x ∈ seen1 ↔ x ∈ seen2) → dedupByKey l seen1 = dedupByKey l seen2 := by
  intro l
  induction l with
  | nil => intro seen1 seen2 _; rfl
  | cons p rest ih =>
    intro seen1 seen2 hiff
    by_cases h1 : p.1 ∈ seen1
    · have h2 : p.1 ∈ seen2 := (hiff p.1).mp h1
      simp only [dedupByKey, if_pos h1, if_pos h2]
      exact ih seen1 seen2 hiff
    · have h2 : p.1 ∉ seen2 := fun h => h1 ((hiff p.1).mpr h)
      simp only [dedupByKey, if_neg h1, if_neg h2]
      rw [ih (p.1 :: seen1) (p.1 :: seen2) (by intro x; simp [hiff x])]

lemma pickTopSymbols_eq :
    ∀ (l : List (String × ℚ)) (acc : List String), acc.length < 20 →
      pickTopSymbols l acc =
        acc ++ ((dedupByKey (l.map lowerFst) acc).take (20 - acc.length)).map Prod.fst := by
  intro l
  induction l with
  | nil => intro acc hacc; simp [pickTopSymbols, dedupByKey]
  | cons p rest ih =>
    intro acc hacc
    by_cases hmem : lowerStr p.1 ∈ acc
    · have h1 : pickTopSymbols (p :: rest) acc = pickTopSymbols rest acc := by
        simp [pickTopSymbols, hmem]
      have h2 : dedupByKey ((p :: rest).map lowerFst) acc =
          dedupByKey (rest.map lowerFst) acc := by
        simp [dedupByKey, lowerFst, hmem]
      rw [h1, h2, ih acc hacc]
    · have h2 : dedupByKey ((p :: rest).map lowerFst) acc =
          lowerFst p :: dedupByKey (rest.map lowerFst) (lowerStr p.1 :: acc) := by
        simp [dedupByKey, lowerFst, hmem]
      by_cases hfull : acc.length + 1 = 20
      · have h1 : pickTopSymbols (p :: rest) acc = acc ++ [lowerStr p.1] := by
          simp [pickTopSymbols, hmem, hfull]
        have h20 : 20 - acc.length = 1 := by omega
        rw [h1, h2, h20]
        simp [lowerFst]
      · have hlt : (acc ++ [lowerStr p.1]).length < 20 := by
          simp only [List.length_append, List.length_cons, List.length_nil]
          omega
        have h1 : pickTopSymbols (p :: rest) acc =
            pickTopSymbols rest (acc ++ [lowerStr p.1]) := by
          simp [pickTopSymbols, hmem, List.length_append, hfull]
        have hseen : dedupByKey (rest.map lowerFst) (acc ++ [lowerStr p.1]) =
            dedupByKey (rest.map lowerFst) (lowerStr p.1 :: acc) :=
          dedupByKey_congr_seen _ _ _ (by intro x; simp [or_comm])
        rw [h1, ih _ hlt, hseen, h2]
        have h20 : 20 - acc.length = (20 - (acc.length + 1)) + 1 := by omega
        rw [h20]
        simp only [List.length_append, List.length_cons, List.length_nil, Nat.add_zero,
          List.take_succ_cons, List.map_cons, lowerFst]
        rw [List.append_assoc]
        rfl

lemma codeTop20_eq_spec (assets : List Asset) :
    pickTopSymbols (sortDescBySnd (usdAssets assets)) [] = specTop20 assets := by
  rw [pickTopSymbols_eq (sortDescBySnd (usdAssets assets)) [] (by simp)]
  rw [← insertionSort_map_lowerFst, ← specNormalizedAssets_eq]
  simp [specTop20, specTop20Pairs]

lemma dedupByKey_sublist : ∀ (l : List (String × ℚ)) (seen : List String),
    (dedupByKey l seen).Sublist l := by
  intro l
  induction l with
  | nil => intro seen; simp [dedupByKey]
  | cons p rest ih =>
    intro seen
    by_cases h : p.1 ∈ seen
    · simp only [dedupByKey, if_pos h]
      exact (ih seen).cons p
    · simp only [dedupByKey, if_neg h]
      exact (ih (p.1 :: seen)).cons₂ p

lemma dedupByKey_keys : ∀ (l : List (String × ℚ)) (seen : List String),
    ((dedupByKey l seen).map Prod.fst).Nodup
    ∧ ∀ p ∈ dedupByKey l seen, p.1 ∉ seen := by
  intro l
  induction l with
  | nil => intro seen; simp [dedupByKey]
  | cons p rest ih =>
    intro seen
    by_cases h : p.1 ∈ seen
    · simp only [dedupByKey, if_pos h]
      exact ih seen
    · simp only [dedupByKey, if_neg h, List.map_cons]
      have hih := ih (p.1 :: seen)
      constructor
      · refine List.nodup_cons.mpr ⟨?_, hih.1⟩
        intro hmem
        obtain ⟨q, hq, hqe⟩ := List.mem_map.mp hmem
        exact hih.2 q hq (hqe ▸ List.mem_cons_self p.1 seen)
      · intro q hq
        rcases List.mem_cons.mp hq with hq | hq
        · rw [hq]; exact h
        · intro hqseen
          exact hih.2 q hq (List.mem_cons_of_mem _ hqseen)

/-! ### Claim C3 -/

/-- Claim C3: on every input, the source's top-20 selection equals the spec's
pipeline (filter USD-pegged, trim+lowercase, drop empty, stable-sort by
circulating descending, dedup keeping the first occurrence, take 20); and for
USD-pegged inputs with pairwise-distinct circulating values the selection is
strictly descending in circulating value, duplicate-free, and of length at
most 20. -/
theorem c3_top20_selection :
    (∀ (assets : List Asset) (tops : List String) (usdcSupply : ℚ),
        build_top20_symbols_and_usdc_supply assets = Except.ok (tops, usdcSupply) →
        tops = specTop20 assets)
    ∧ (∀ assets : List Asset, usdAssets assets ≠ [] →
        ((usdAssets assets).map Prod.snd).Nodup →
        (specTop20Pairs assets).Pairwise (fun p q => q.2 < p.2)
        ∧ (specTop20 assets).Nodup
        ∧ (specTop20 assets).length ≤ 20) := by
  constructor
  · intro assets tops usdcSupply h
    by_cases h1 : (usdAssets assets).isEmpty
    · simp [build_top20_symbols_and_usdc_supply, h1] at h
    · by_cases h2 : (usdcCandidates assets).isEmpty
      · simp [build_top20_symbols_and_usdc_supply, h1, h2] at h
      · simp only [build_top20_symbols_and_usdc_supply, h1, h2, Bool.false_eq_true,
          if_false, Except.ok.injEq, Prod.mk.injEq] at h
        rw [← h.1, codeTop20_eq_spec]
  · intro assets _ hnodup
    have hsnd : ((specNormalizedAssets assets).map Prod.snd).Nodup := by
      rw [specNormalizedAssets_eq]
      have : ((usdAssets assets).map lowerFst).map Prod.snd =
          (usdAssets assets).map Prod.snd := by
        rw [List.map_map]
        rfl
      rw [this]
      exact hnodup
    have hsortsnd : ((sortDescBySnd (specNormalizedAssets assets)).map Prod.snd).Nodup :=
      (((List.perm_insertionSort descBySnd (specNormalizedAssets assets)).map
        Prod.snd).nodup_iff).mpr hsnd
    have hsorted : (sortDescBySnd (specNormalizedAssets assets)).Pairwise descBySnd :=
      List.sorted_insertionSort descBySnd (specNormalizedAssets assets)
    have hne2 : (sortDescBySnd (specNormalizedAssets assets)).Pairwise
        (fun p q => p.2 ≠ q.2) := by
      rw [List.Nodup, List.pairwise_map] at hsortsnd
      exact hsortsnd
    have hstrict : (sortDescBySnd (specNormalizedAssets assets)).Pairwise
        (fun p q => q.2 < p.2) :=
      (hsorted.and hne2).imp fun h => lt_of_le_of_ne h.1 (Ne.symm h.2)
    have hsub : (specTop20Pairs assets).Sublist
        (sortDescBySnd (specNormalizedAssets assets)) :=
      (List.take_sublist 20 _).trans (dedupByKey_sublist _ [])
    refine ⟨hstrict.sublist hsub, ?_, ?_⟩
    · have hkeys := (dedupByKey_keys (sortDescBySnd (specNormalizedAssets assets)) []).1
      have hsubm : ((specTop20Pairs assets).map Prod.fst).Sublist
          ((dedupByKey (sortDescBySnd (specNormalizedAssets assets)) []).map Prod.fst) :=
        (List.take_sublist 20 _).map Prod.fst
      exact hkeys.sublist hsubm
    · simp only [specTop20, specTop20Pairs, List.length_map]
      exact (List.length_take_le 20 _)

/-- Witness for claim C3 at a concrete asset list with distinct circulating
values, a duplicate symbol, a non-USD peg, and more than one survivor. -/
theorem c3_top20_selection_witness :
    (["usdt", "usdc"] : List String) =
      specTop20
        [⟨some "peggedUSD", some "USDC", PyVal.num 10⟩,
         ⟨some "peggedUSD", some " usdc", PyVal.num 30⟩,
         ⟨some "peggedEUR", some "EURC", PyVal.num 100⟩,
         ⟨some "peggedUSD", some "USDT", PyVal.num 60⟩]
    ∧ ((specTop20Pairs
        [⟨some "peggedUSD", some "USDC", PyVal.num 10⟩,
         ⟨some "peggedUSD", some " usdc", PyVal.num 30⟩,
         ⟨some "peggedEUR", some "EURC", PyVal.num 100⟩,
         ⟨some "peggedUSD", some "USDT", PyVal.num 60⟩]).Pairwise (fun p q => q.2 < p.2)
      ∧ (specTop20
        [⟨some "peggedUSD", some "USDC", PyVal.num 10⟩,
         ⟨some "peggedUSD", some " usdc", PyVal.num 30⟩,
         ⟨some "peggedEUR", some "EURC", PyVal.num 100⟩,
         ⟨some "peggedUSD", some "USDT", PyVal.num 60⟩]).Nodup
      ∧ (specTop20
        [⟨some "peggedUSD", some "USDC", PyVal.num 10⟩,
         ⟨some "peggedUSD", some " usdc", PyVal.num 30⟩,
         ⟨some "peggedEUR", some "EURC", PyVal.num 100⟩,
         ⟨some "peggedUSD", some "USDT", PyVal.num 60⟩]).length ≤ 20) :=
  ⟨c3_top20_selection.1
      [⟨some "peggedUSD", some "USDC", PyVal.num 10⟩,
       ⟨some "peggedUSD", some " usdc", PyVal.num 30⟩,
       ⟨some "peggedEUR", some "EURC", PyVal.num 100⟩,
       ⟨some "peggedUSD", some "USDT", PyVal.num 60⟩]
      ["usdt", "usdc"] 30 rfl,
   c3_top20_selection.2
      [⟨some "peggedUSD", some "USDC", PyVal.num 10⟩,
       ⟨some "peggedUSD", some " usdc", PyVal.num 30⟩,
       ⟨some "peggedEUR", some "EURC", PyVal.num 100⟩,
       ⟨some "peggedUSD", some "USDT", PyVal.num 60⟩]
      (by decide) (by decide)⟩

/-! ### Claim C4 -/

lemma foldl_max_spec : ∀ (xs : List ℚ) (a : ℚ),
    (xs.foldl max a = a ∨ xs.foldl max a ∈ xs)
    ∧ a ≤ xs.foldl max a
    ∧ ∀ x ∈ xs, x ≤ xs.foldl max a := by
  intro xs
  induction xs with
  | nil => intro a; exact ⟨Or.inl rfl, le_refl a, by simp⟩
  | cons x t ih =>
    intro a
    have h := ih (max a x)
    rw [List.foldl_cons]
    refine ⟨?_, ?_, ?_⟩
    · rcases h.1 with heq | hmem
      · rcases max_choice a x with hc | hc
        · exact Or.inl (heq.trans hc)
        · exact Or.inr (by rw [heq, hc]; exact List.mem_cons_self x t)
      · exact Or.inr (List.mem_cons_of_mem x hmem)
    · exact le_trans (le_max_left a x) h.2.1
    · intro y hy
      rcases List.mem_cons.mp hy with hy | hy
      · rw [hy]; exact le_trans (le_max_right a x) h.2.1
      · exact h.2.2 y hy

lemma listMax_spec (l : List ℚ) (h : l ≠ []) :
    listMax l ∈ l ∧ ∀ x ∈ l, x ≤ listMax l := by
  cases l with
  | nil => exact absurd rfl h
  | cons x t =>
    have hf := foldl_max_spec t x
    constructor
    · rcases hf.1 with heq | hmem
      · rw [listMax, heq]; exact List.mem_cons_self x t
      · exact List.mem_cons_of_mem x hmem
    · intro y hy
      rcases List.mem_cons.mp hy with hy | hy
      · rw [hy]; exact hf.2.1
      · exact hf.2.2 y hy

lemma upperStr_USDC_ne_empty (s : String) (h : upperStr s = "USDC") : s ≠ "" := by
  intro hs
  rw [hs] at h
  exact absurd h (by decide)

lemma usdcCandidates_ne_nil (assets : List Asset)
    (h : ∃ a ∈ assets, a.pegType = some "peggedUSD" ∧ upperStr (symbolString a) = "USDC") :
    usdcCandidates assets ≠ [] := by
  obtain ⟨a, ha, hp, hu⟩ := h
  intro hnil
  have hentry : usdcCandidateEntry a = some (get_pegged_usd_circulating a.circulating) := by
    simp [usdcCandidateEntry, hp, upperStr_USDC_ne_empty _ hu, hu]
  have : get_pegged_usd_circulating a.circulating ∈ usdcCandidates assets :=
    List.mem_filterMap.mpr ⟨a, ha, hentry⟩
  rw [hnil] at this
  exact List.not_mem_nil _ this

lemma usdAssets_ne_nil_of_candidates (assets : List Asset)
    (h : usdcCandidates assets ≠ []) : usdAssets assets ≠ [] := by
  intro hnil
  apply h
  rw [usdcCandidates, List.filterMap_eq_nil_iff]
  intro a ha
  have hA : usdAssetEntry a = Option.none := by
    rw [usdAssets, List.filterMap_eq_nil_iff] at hnil
    exact hnil a ha
  by_cases hp : a.pegType = some "peggedUSD"
  · by_cases hs : symbolString a = ""
    · simp [usdcCandidateEntry, hp, hs]
    · simp [usdAssetEntry, hp, hs] at hA
  · simp [usdcCandidateEntry, hp]

/-- Claim C4: whenever some USD-pegged asset's symbol equals "USDC"
case-insensitively after trimming, the selected `usdcSupplyUsd` is the
maximum circulating value over all such occurrences (it is one of the
candidates and dominates every candidate); the candidate pool is exactly the
circulating values of those occurrences; duplicate USDC records with
circulating values [10, 30, 20] select 30; and with no USDC candidate the
operation fails with `DataUnavailable`. -/
theorem c4_usdc_supply_max :
    (∀ assets : List Asset,
      (∃ a ∈ assets, a.pegType = some "peggedUSD" ∧ upperStr (symbolString a) = "USDC") →
      (∃ tops, build_top20_symbols_and_usdc_supply assets =
          Except.ok (tops, listMax (usdcCandidates assets)))
      ∧ listMax (usdcCandidates assets) ∈ usdcCandidates assets
      ∧ ∀ c ∈ usdcCandidates assets, c ≤ listMax (usdcCandidates assets))
    ∧ (∀ assets : List Asset,
        usdcCandidates assets = assets.filterMap fun a =>
          if a.pegType = some "peggedUSD" ∧ upperStr (symbolString a) = "USDC" then
            some (get_pegged_usd_circulating a.circulating)
          else Option.none)
    ∧ build_top20_symbols_and_usdc_supply
        [⟨some "peggedUSD", some "USDC", PyVal.num 10⟩,
         ⟨some "peggedUSD", some "USDC", PyVal.num 30⟩,
         ⟨some "peggedUSD", some "USDC", PyVal.num 20⟩] =
        Except.ok (["usdc"], 30)
    ∧ (∀ assets : List Asset, usdcCandidates assets = [] →
        ∃ e, build_top20_symbols_and_usdc_supply assets = Except.error e) := by
  refine ⟨?_, ?_, rfl, ?_⟩
  · intro assets hex
    have hc : usdcCandidates assets ≠ [] := usdcCandidates_ne_nil assets hex
    have ha : usdAssets assets ≠ [] := usdAssets_ne_nil_of_candidates assets hc
    have h1 : (usdAssets assets).isEmpty = false := by
      cases hA : usdAssets assets with
      | nil => exact absurd hA ha
      | cons p t => rfl
    have h2 : (usdcCandidates assets).isEmpty = false := by
      cases hC : usdcCandidates assets with
      | nil => exact absurd hC hc
      | cons c t => rfl
    refine ⟨⟨pickTopSymbols (sortDescBySnd (usdAssets assets)) [], ?_⟩, listMax_spec _ hc⟩
    simp [build_top20_symbols_and_usdc_supply, h1, h2]
  · intro assets
    rw [usdcCandidates]
    apply List.filterMap_congr
    intro a _
    by_cases hp : a.pegType = some "peggedUSD"
    · by_cases hu : upperStr (symbolString a) = "USDC"
      · simp [usdcCandidateEntry, hp, hu, upperStr_USDC_ne_empty _ hu]
      · by_cases hs : symbolString a = ""
        · simp [usdcCandidateEntry, hp, hs, hu, show upperStr "" = "" from rfl]
        · simp [usdcCandidateEntry, hp, hs, hu]
    · simp [usdcCandidateEntry, hp]
  · intro assets hc
    by_cases h1 : (usdAssets assets).isEmpty
    · exact ⟨"No peggedUSD assets found in DefiLlama response",
        by simp [build_top20_symbols_and_usdc_supply, h1]⟩
    · refine ⟨"USDC supply not found in DefiLlama stablecoins list", ?_⟩
      have h2 : (usdcCandidates assets).isEmpty = true := by
        rw [hc]; rfl
      simp [build_top20_symbols_and_usdc_supply, h1, h2]

/-- Witness for claim C4's conditional parts at concrete inputs. -/
theorem c4_usdc_supply_max_witness :
    ((∃ tops, build_top20_symbols_and_usdc_supply
        [⟨some "peggedUSD", some " usdc ", PyVal.num 7⟩,
         ⟨some "peggedUSD", some "USDC", PyVal.num 5⟩] =
        Except.ok (tops, listMax (usdcCandidates
          [⟨some "peggedUSD", some " usdc ", PyVal.num 7⟩,
           ⟨some "peggedUSD", some "USDC", PyVal.num 5⟩])))
      ∧ listMax (usdcCandidates
          [⟨some "peggedUSD", some " usdc ", PyVal.num 7⟩,
           ⟨some "peggedUSD", some "USDC", PyVal.num 5⟩]) ∈ usdcCandidates
          [⟨some "peggedUSD", some " usdc ", PyVal.num 7⟩,
           ⟨some "peggedUSD", some "USDC", PyVal.num 5⟩]
      ∧ ∀ c ∈ usdcCandidates
          [⟨some "peggedUSD", some " usdc ", PyVal.num 7⟩,
           ⟨some "peggedUSD", some "USDC", PyVal.num 5⟩],
          c ≤ listMax (usdcCandidates
            [⟨some "peggedUSD", some " usdc ", PyVal.num 7⟩,
             ⟨some "peggedUSD", some "USDC", PyVal.num 5⟩]))
    ∧ (∃ e, build_top20_symbols_and_usdc_supply
        [⟨some "peggedUSD", some "USDT", PyVal.num 60⟩] = Except.error e) :=
  ⟨c4_usdc_supply_max.1
      [⟨some "peggedUSD", some " usdc ", PyVal.num 7⟩,
       ⟨some "peggedUSD", some "USDC", PyVal.num 5⟩]
      ⟨⟨some "peggedUSD", some " usdc ", PyVal.num 7⟩, by simp, rfl, by decide⟩,
   c4_usdc_supply_max.2.2.2 [⟨some "peggedUSD", some "USDT", PyVal.num 60⟩] rfl⟩

/-! ### Claim C1 -/

lemma compute_share_none (totals : List (String × ℚ)) (symbols : List String)
    (h : dictGet totals "usdc" = Option.none) :
    compute_dune_share totals symbols =
      Except.ok (Option.none, (partitionSymbols totals [] [] symbols).1,
        (partitionSymbols totals [] [] symbols).2) := by
  have habs : dictGet (partitionSymbols totals [] [] symbols).2 "usdc" = Option.none := by
    rw [partitionSymbols_get]
    simp [h, dictGet]
  simp [compute_dune_share, habs]

/-- Claim C1 amended: when the volume totals contain no `usdc` entry,
`compute_dune_share` itself returns an unavailable share without raising, and
the supply-side metrics are complete and carried along — but `run_report`
then raises `WeeklyReportError` on the unavailable share, so the run goes
through the failure path with exit code 1 (the failure report carrying the
completed supply-side metrics), not through the success path. -/
theorem c1_unavailable_share_fails_run (assets : List Asset) (chart : List ChartPoint)
    (rows : List DuneRow) (history : StoredDoc) (tops : List String) (usdcS total : ℚ)
    (hbuild : build_top20_symbols_and_usdc_supply assets = Except.ok (tops, usdcS))
    (htotal : get_total_supply_usd chart = Except.ok total)
    (hne : extract_totals_loop rows ≠ [])
    (husdc : dictGet (extract_totals_loop rows) "usdc" = Option.none) :
    (∃ ms dt, compute_dune_share (extract_totals_loop rows) tops =
        Except.ok (Option.none, ms, dt))
    ∧ (run_report_core assets chart (Except.ok rows) history).exitCode = 1
    ∧ (run_report_core assets chart (Except.ok rows) history).failure =
        some "Dune query result did not include usable USDC transfer volume data"
    ∧ (run_report_core assets chart (Except.ok rows) history).metrics
        MetricName.total_supply_usd = some total
    ∧ (run_report_core assets chart (Except.ok rows) history).metrics
        MetricName.usdc_supply_usd = some usdcS
    ∧ (run_report_core assets chart (Except.ok rows) history).metrics
        MetricName.usdc_supply_share = some (usdcS / total)
    ∧ (run_report_core assets chart (Except.ok rows) history).metrics
        MetricName.usdc_transfer_volume_share_7d = Option.none := by
  have hextract : extract_dune_symbol_totals rows = Except.ok (extract_totals_loop rows) := by
    have hfalse : (extract_totals_loop rows).isEmpty = false := by
      cases hE : extract_totals_loop rows with
      | nil => exact absurd hE hne
      | cons p t => rfl
    simp [extract_dune_symbol_totals, hfalse]
  have hshare := compute_share_none (extract_totals_loop rows) tops husdc
  refine ⟨⟨_, _, hshare⟩, ?_, ?_, ?_, ?_, ?_, ?_⟩ <;>
    simp [run_report_core, hbuild, htotal, hextract, hshare, setMetric, initMetrics]

/-- Concrete asset list for the C1 counterexample. -/
def c1Assets : List Asset :=
  [⟨some "peggedUSD", some "USDC", PyVal.num 250⟩,
   ⟨some "peggedUSD", some "USDT", PyVal.num 600⟩]

/-- Concrete chart for the C1 counterexample. -/
def c1Chart : List ChartPoint := [⟨PyVal.dict [("peggedUSD", PyVal.num 1000)]⟩]

/-- Concrete Dune rows for the C1 counterexample: volume data exists only for
USDT, so the totals have no `usdc` entry. -/
def c1Rows : List DuneRow := [[("symbol", PyVal.str "usdt"), ("volume", PyVal.num 10)]]

/-- Claim C1, as stated, is false on the code: with `usdc` absent from the
volume totals, the supply-side metrics complete (total 1000, USDC 250, share
0.25) and `compute_dune_share` returns an unavailable share without raising —
yet the run exits through the failure path with exit code 1 and the
`WeeklyReportError` message, not as a success. -/
theorem c1_unavailable_share_counterexample :
    dictGet (extract_totals_loop c1Rows) "usdc" = Option.none
    ∧ (∃ ms dt, compute_dune_share (extract_totals_loop c1Rows) ["usdt", "usdc"] =
        Except.ok (Option.none, ms, dt))
    ∧ (run_report_core c1Assets c1Chart (Except.ok c1Rows) StoredDoc.missing).metrics
        MetricName.total_supply_usd = some 1000
    ∧ (run_report_core c1Assets c1Chart (Except.ok c1Rows) StoredDoc.missing).metrics
        MetricName.usdc_supply_usd = some 250
    ∧ (run_report_core c1Assets c1Chart (Except.ok c1Rows) StoredDoc.missing).metrics
        MetricName.usdc_supply_share = some 0.25
    ∧ (run_report_core c1Assets c1Chart (Except.ok c1Rows) StoredDoc.missing).exitCode = 1
    ∧ (run_report_core c1Assets c1Chart (Except.ok c1Rows) StoredDoc.missing).failure =
        some "Dune query result did not include usable USDC transfer volume data" :=
  ⟨rfl, ⟨["usdc"], [("usdt", 10)], rfl⟩, rfl, rfl, rfl, rfl, rfl⟩

/-- Witness for the amended claim C1 at the concrete counterexample inputs. -/
theorem c1_unavailable_share_fails_run_witness :
    (∃ ms dt, compute_dune_share (extract_totals_loop c1Rows) ["usdt", "usdc"] =
        Except.ok (Option.none, ms, dt))
    ∧ (run_report_core c1Assets c1Chart (Except.ok c1Rows) StoredDoc.missing).exitCode = 1
    ∧ (run_report_core c1Assets c1Chart (Except.ok c1Rows) StoredDoc.missing).failure =
        some "Dune query result did not include usable USDC transfer volume data"
    ∧ (run_report_core c1Assets c1Chart (Except.ok c1Rows) StoredDoc.missing).metrics
        MetricName.total_supply_usd = some 1000
    ∧ (run_report_core c1Assets c1Chart (Except.ok c1Rows) StoredDoc.missing).metrics
        MetricName.usdc_supply_usd = some 250
    ∧ (run_report_core c1Assets c1Chart (Except.ok c1Rows) StoredDoc.missing).metrics
        MetricName.usdc_supply_share = some (250 / 1000)
    ∧ (run_report_core c1Assets c1Chart (Except.ok c1Rows) StoredDoc.missing).metrics
        MetricName.usdc_transfer_volume_share_7d = Option.none :=
  c1_unavailable_share_fails_run c1Assets c1Chart c1Rows StoredDoc.missing
    ["usdt", "usdc"] 250 1000 rfl rfl (by decide) rfl
